import Mathlib

/-!
Shallow embedding of the `TranslationsManager` class of `react-intl-tm`
(`src/lib/index.js`), covering option validation, message resolution,
template building, translation-file reading and the per-locale
reconciliation performed by `_perform`, plus the `reload()` /
constructor drivers.

JSON objects with string values are modelled as insertion-ordered
association lists (`Obj`).  `JSON.parse` and the template builder never
produce an object with a duplicated key, so list order coincides with
the enumeration order of the corresponding JavaScript object.
-/

/-- A JSON object with string values: an insertion-ordered association
list of key/value pairs. -/
abbrev Obj := List (String × String)

/-- Property lookup `obj[key]` (first entry with the given key). -/
def getKey : Obj → String → Option String
  | [], _ => none
  | e :: rest, k => if e.1 == k then some e.2 else getKey rest k

/-- The JavaScript `key in obj` test. -/
def hasKey (o : Obj) (k : String) : Bool := (getKey o k).isSome

/-- JavaScript assignment `obj[key] = v`: an existing property is
updated in place, a new one is appended at the end. -/
def setKey (o : Obj) (k v : String) : Obj :=
  if hasKey o k then o.map (fun e => if e.1 == k then (k, v) else e)
  else o ++ [(k, v)]

/-- One extracted message, a pair of `id` and `defaultMessage`. -/
structure Message where
  id : String
  defaultMessage : String
  deriving DecidableEq

/-- The recognized constructor options (`TMOptions`).  Options a caller
leaves out are `none`. -/
structure TMOptions where
  source : Option String := none
  messages : Option (List Message) := none
  messagesDir : Option String := none
  translationsDir : Option String := none
  locales : List String := []
  defaultLocale : Option String := none
  deriving DecidableEq

/-- One reconciliation result (`TMResult`). -/
structure TMResult where
  locale : String
  translation : Obj
  added : Obj
  removed : Obj
  untranslated : Obj
  deriving DecidableEq

/-- What reading one locale's translation file can yield on disk:
the file is missing (ENOENT), it parses to an object, or reading or
parsing fails with some other error. -/
inductive FileOutcome where
  | absent
  | content (obj : Obj)
  | readError (msg : String)
  deriving DecidableEq

/-- The external world: the per-locale translation files, plus the two
message collaborators (the JSON files under `messagesDir` and the babel
extraction over `source`), which are thin I/O wrappers outside the
reconciliation core. -/
structure Env where
  files : String → FileOutcome
  dirMessages : List Message
  extractedMessages : List Message

/-- JavaScript truthiness of an optional string option: absence and the
empty string are falsy. -/
def strTruthy : Option String → Bool
  | none => false
  | some s => !(s == "")

/-- JavaScript truthiness of the `messages` option: any supplied array,
including the empty one, is truthy. -/
def messagesTruthy : Option (List Message) → Bool
  | none => false
  | some _ => true

/-- `_validateOptions`: requires one of the three message sources (in
the order the code tests their truthiness) and `translationsDir`. -/
def validateOptions (o : TMOptions) : Except String Unit :=
  if !messagesTruthy o.messages && !strTruthy o.messagesDir && !strTruthy o.source then
    Except.error "Please provide one of messages, messagesDir, or source options"
  else if !strTruthy o.translationsDir then
    Except.error "Please provide translationsDir option"
  else Except.ok ()

/-- `_resolveMessages`: a supplied `messages` array wins, then
`messagesDir`, then `source`. -/
def resolveMessages (o : TMOptions) (env : Env) : Except String (List Message) :=
  match o.messages with
  | some ms => Except.ok ms
  | none =>
    if strTruthy o.messagesDir then Except.ok env.dirMessages
    else if strTruthy o.source then Except.ok env.extractedMessages
    else Except.error "Messages required"

/-- `_buildTemplate`: collapse the message list into an object,
`acc[id] = defaultMessage` for each message in order. -/
def buildTemplate (messages : List Message) : Obj :=
  messages.foldl (fun acc m => setKey acc m.id m.defaultMessage) []

/-- `readTranslationFile`: a missing file (ENOENT) yields `undefined`
(`none`); any other failure is rethrown. -/
def readTranslationFile (env : Env) (locale : String) : Except String (Option Obj) :=
  match env.files locale with
  | FileOutcome.absent => Except.ok none
  | FileOutcome.content obj => Except.ok (some obj)
  | FileOutcome.readError msg => Except.error msg

/-- `locale === defaultLocale` (false when `defaultLocale` is not
supplied). -/
def isDefaultLocale (defaultLocale : Option String) (locale : String) : Bool :=
  match defaultLocale with
  | none => false
  | some d => locale == d

/-- The body of the first loop of `_perform`, one template entry at a
time; the accumulator is `(translation, untranslated, added)`. -/
def reconcileStep (isDefault : Bool) (file : Obj) (acc : Obj × Obj × Obj)
    (entry : String × String) : Obj × Obj × Obj :=
  let translation := acc.1
  let untranslated := acc.2.1
  let added := acc.2.2
  let key := entry.1
  let defaultMessage := entry.2
  match getKey file key with
  | some message =>
    (translation ++ [(key, message)],
     if !isDefault && message == defaultMessage then untranslated ++ [(key, message)]
     else untranslated,
     added)
  | none =>
    let v := if isDefault then defaultMessage else ""
    (translation ++ [(key, v)], untranslated, added ++ [(key, v)])

/-- One iteration of the locale loop of `_perform`: reconcile one
locale's prior file (`none` when the file was absent) against the
template. -/
def reconcileLocale (template : Obj) (defaultLocale : Option String) (locale : String)
    (file? : Option Obj) : TMResult :=
  let isDefault := isDefaultLocale defaultLocale locale
  let file := file?.getD []
  let acc := template.foldl (reconcileStep isDefault file) ([], [], [])
  let translation := acc.1
  let untranslated := acc.2.1
  let added := acc.2.2
  let removed := file.filter (fun e => !(hasKey translation e.1))
  { locale := locale, translation := translation, added := added,
    removed := removed, untranslated := untranslated }

/-- The manager's mutable fields: options, the accumulated result list
`this.translations`, and the `messages` / `template` set by reload. -/
structure Manager where
  options : TMOptions
  translations : List TMResult
  messages : List Message
  template : Obj
  deriving DecidableEq

/-- `_perform`: walk the configured locales, pushing one result per
locale onto the accumulated list; a read error stops the loop there,
keeping the results already pushed. -/
def performLoop (defaultLocale : Option String) (template : Obj) (env : Env) :
    List String → List TMResult → List TMResult × Option String
  | [], acc => (acc, none)
  | locale :: rest, acc =>
    match readTranslationFile env locale with
    | Except.error e => (acc, some e)
    | Except.ok file? =>
      performLoop defaultLocale template env rest
        (acc ++ [reconcileLocale template defaultLocale locale file?])

/-- `reload()`: `_resolveMessages`, `_buildTemplate`, `_perform`.
Mutations made before an error surfaces (the resolved messages, the
template, the results pushed so far) persist on the manager. -/
def reload (m : Manager) (env : Env) : Manager × Option String :=
  match resolveMessages m.options env with
  | Except.error e => (m, some e)
  | Except.ok msgs =>
    let template := buildTemplate msgs
    let res := performLoop m.options.defaultLocale template env m.options.locales m.translations
    ({ m with messages := msgs, template := template, translations := res.1 }, res.2)

/-- The constructor: store the options, initialise `this.translations`
to the empty list, validate (before any file access), then reload; an
error thrown anywhere propagates to the caller. -/
def construct (options : TMOptions) (env : Env) : Except String Manager :=
  match validateOptions options with
  | Except.error e => Except.error e
  | Except.ok _ =>
    let m0 : Manager := { options := options, translations := [], messages := [], template := [] }
    match reload m0 env with
    | (m, none) => Except.ok m
    | (_, some e) => Except.error e

/-- `results()`. -/
def results (m : Manager) : List TMResult := m.translations

/-- The translation entry the first loop of `_perform` emits for one
template entry. -/
def translationEntry (isDefault : Bool) (file : Obj) (e : String × String) : String × String :=
  match getKey file e.1 with
  | some v => (e.1, v)
  | none => (e.1, if isDefault then e.2 else "")

/-- The untranslated entry (if any) the first loop of `_perform` emits
for one template entry. -/
def untranslatedEntry (isDefault : Bool) (file : Obj) (e : String × String) :
    Option (String × String) :=
  match getKey file e.1 with
  | some v => if !isDefault && v == e.2 then some (e.1, v) else none
  | none => none

/-- The added entry (if any) the first loop of `_perform` emits for one
template entry. -/
def addedEntry (isDefault : Bool) (file : Obj) (e : String × String) :
    Option (String × String) :=
  match getKey file e.1 with
  | some _ => none
  | none => some (e.1, if isDefault then e.2 else "")

/-- The prior file contents a successful read yields for a locale. -/
def fileOf (env : Env) (locale : String) : Option Obj :=
  match env.files locale with
  | FileOutcome.content obj => some obj
  | _ => none

/-! ## Characterisation of the first loop of `_perform` -/

theorem reconcileStep_eq (isDefault : Bool) (file : Obj) (acc : Obj × Obj × Obj)
    (e : String × String) :
    reconcileStep isDefault file acc e
      = (acc.1 ++ [translationEntry isDefault file e],
         acc.2.1 ++ (untranslatedEntry isDefault file e).toList,
         acc.2.2 ++ (addedEntry isDefault file e).toList) := by
  simp only [reconcileStep, translationEntry, untranslatedEntry, addedEntry]
  cases h : getKey file e.1 with
  | none => simp
  | some v =>
    cases hv : (!isDefault && v == e.2) <;> simp [hv]

theorem reconcileFold (isDefault : Bool) (file : Obj) (template : Obj)
    (acc : Obj × Obj × Obj) :
    template.foldl (reconcileStep isDefault file) acc
      = (acc.1 ++ template.map (translationEntry isDefault file),
         acc.2.1 ++ template.filterMap (untranslatedEntry isDefault file),
         acc.2.2 ++ template.filterMap (addedEntry isDefault file)) := by
  induction template generalizing acc with
  | nil => simp
  | cons e ts ih =>
    rw [List.foldl_cons, reconcileStep_eq, ih]
    cases hu : untranslatedEntry isDefault file e <;>
      cases ha : addedEntry isDefault file e <;>
        simp [List.filterMap_cons, hu, ha]

theorem reconcileLocale_translation (t : Obj) (dl : Option String) (locale : String)
    (file? : Option Obj) :
    (reconcileLocale t dl locale file?).translation
      = t.map (translationEntry (isDefaultLocale dl locale) (file?.getD [])) := by
  simp [reconcileLocale, reconcileFold]

theorem reconcileLocale_untranslated (t : Obj) (dl : Option String) (locale : String)
    (file? : Option Obj) :
    (reconcileLocale t dl locale file?).untranslated
      = t.filterMap (untranslatedEntry (isDefaultLocale dl locale) (file?.getD [])) := by
  simp [reconcileLocale, reconcileFold]

theorem reconcileLocale_added (t : Obj) (dl : Option String) (locale : String)
    (file? : Option Obj) :
    (reconcileLocale t dl locale file?).added
      = t.filterMap (addedEntry (isDefaultLocale dl locale) (file?.getD [])) := by
  simp [reconcileLocale, reconcileFold]

theorem translationEntry_fst (b : Bool) (f : Obj) (e : String × String) :
    (translationEntry b f e).1 = e.1 := by
  simp only [translationEntry]
  cases getKey f e.1 <;> rfl

theorem getKey_map_translationEntry (b : Bool) (f t : Obj) (k : String) :
    getKey (t.map (translationEntry b f)) k
      = Option.map (fun d => (translationEntry b f (k, d)).2) (getKey t k) := by
  induction t with
  | nil => rfl
  | cons e ts ih =>
    simp only [List.map_cons, getKey]
    rw [translationEntry_fst]
    by_cases hk : (e.1 == k) = true
    · have hek : e.1 = k := eq_of_beq hk
      subst hek
      simp
    · simp only [hk, Bool.false_eq_true, if_false, ih]

theorem hasKey_map_translationEntry (b : Bool) (f t : Obj) (k : String) :
    hasKey (t.map (translationEntry b f)) k = hasKey t k := by
  simp only [hasKey, getKey_map_translationEntry]
  cases getKey t k <;> rfl

theorem hasKey_translation (t : Obj) (dl : Option String) (locale : String)
    (file? : Option Obj) (k : String) :
    hasKey (reconcileLocale t dl locale file?).translation k = hasKey t k := by
  rw [reconcileLocale_translation, hasKey_map_translationEntry]

theorem reconcileLocale_removed (t : Obj) (dl : Option String) (locale : String)
    (file? : Option Obj) :
    (reconcileLocale t dl locale file?).removed
      = (file?.getD []).filter (fun e => !(hasKey t e.1)) := by
  have h2 : (fun (e : String × String) =>
        !(hasKey (t.map (translationEntry (isDefaultLocale dl locale) (file?.getD []))) e.1))
      = fun e => !(hasKey t e.1) :=
    funext fun e => by rw [hasKey_map_translationEntry]
  simp only [reconcileLocale, reconcileFold, List.nil_append]
  rw [h2]

theorem hasKey_of_mem (t : Obj) (e : String × String) (h : e ∈ t) :
    hasKey t e.1 = true := by
  induction t with
  | nil => cases h
  | cons a ts ih =>
    rcases List.mem_cons.mp h with he | hmem
    · subst he
      simp [hasKey, getKey]
    · have hts := ih hmem
      simp only [hasKey, getKey] at hts ⊢
      by_cases ha : (a.1 == e.1) = true <;> simp [ha, hts]

theorem mem_of_hasKey (t : Obj) (k : String) (h : hasKey t k = true) :
    ∃ v, (k, v) ∈ t := by
  induction t with
  | nil => simp [hasKey, getKey] at h
  | cons a ts ih =>
    by_cases ha : (a.1 == k) = true
    · have hak : a.1 = k := eq_of_beq ha
      exact ⟨a.2, by rw [← hak]; exact List.mem_cons_self a ts⟩
    · simp only [hasKey, getKey, ha, Bool.false_eq_true, if_false] at h
      obtain ⟨v, hv⟩ := ih h
      exact ⟨v, List.mem_cons_of_mem a hv⟩

theorem addedEntry_fst (b : Bool) (f : Obj) (e : String × String) (r : String × String)
    (h : addedEntry b f e = some r) : r.1 = e.1 := by
  simp only [addedEntry] at h
  cases hf : getKey f e.1 with
  | some v => rw [hf] at h; cases h
  | none => rw [hf] at h; cases h; rfl

/-! ## Characterisation of `_perform` over the locale list -/

theorem performLoop_ok_front (dl : Option String) (t : Obj) (env : Env)
    (pre ls2 : List String) (acc : List TMResult)
    (h : ∀ l ∈ pre, ∀ e, env.files l ≠ FileOutcome.readError e) :
    performLoop dl t env (pre ++ ls2) acc
      = performLoop dl t env ls2
          (acc ++ pre.map (fun l => reconcileLocale t dl l (fileOf env l))) := by
  induction pre generalizing acc with
  | nil => simp
  | cons l rest ih =>
    have hl : ∀ e, env.files l ≠ FileOutcome.readError e := h l (List.mem_cons_self l rest)
    have hrest : ∀ x ∈ rest, ∀ e, env.files x ≠ FileOutcome.readError e :=
      fun x hx => h x (List.mem_cons_of_mem l hx)
    rw [List.cons_append]
    cases hf : env.files l with
    | absent =>
      show performLoop dl t env (l :: (rest ++ ls2)) acc = _
      rw [performLoop]
      simp only [readTranslationFile, hf]
      rw [ih _ hrest]
      simp [fileOf, hf]
    | content obj =>
      show performLoop dl t env (l :: (rest ++ ls2)) acc = _
      rw [performLoop]
      simp only [readTranslationFile, hf]
      rw [ih _ hrest]
      simp [fileOf, hf]
    | readError e => exact absurd hf (hl e)

theorem performLoop_ok (dl : Option String) (t : Obj) (env : Env)
    (ls : List String) (acc : List TMResult)
    (h : ∀ l ∈ ls, ∀ e, env.files l ≠ FileOutcome.readError e) :
    performLoop dl t env ls acc
      = (acc ++ ls.map (fun l => reconcileLocale t dl l (fileOf env l)), none) := by
  have hpre := performLoop_ok_front dl t env ls [] acc h
  rw [List.append_nil] at hpre
  rw [hpre]
  rfl

theorem reload_ok (m : Manager) (env : Env) (msgs : List Message)
    (hres : resolveMessages m.options env = Except.ok msgs)
    (hok : ∀ l ∈ m.options.locales, ∀ e, env.files l ≠ FileOutcome.readError e) :
    reload m env
      = ({ m with
            messages := msgs,
            template := buildTemplate msgs,
            translations := m.translations
              ++ m.options.locales.map (fun l =>
                   reconcileLocale (buildTemplate msgs) m.options.defaultLocale l (fileOf env l)) },
         none) := by
  rw [reload, hres]
  simp only [performLoop_ok _ _ _ _ _ hok]

/-! ## Claims about one locale's reconciliation -/

/-- C2: for every locale and every key of the template, the emitted
translation maps the key to the prior file's value when the key exists
there, and otherwise to the template's default text for the default
locale and to the empty string for any other locale; `added` records
exactly the keys absent from the prior file, paired with those fill
values. -/
theorem c2_translation_and_added (t : Obj) (dl : Option String) (locale : String)
    (file : Obj) (k d : String) (hk : getKey t k = some d) :
    (getKey (reconcileLocale t dl locale (some file)).translation k
      = some (match getKey file k with
              | some v => v
              | none => if isDefaultLocale dl locale then d else ""))
    ∧ (reconcileLocale t dl locale (some file)).added
        = t.filterMap (fun e =>
            if hasKey file e.1 then none
            else some (e.1, if isDefaultLocale dl locale then e.2 else "")) := by
  constructor
  · rw [reconcileLocale_translation, getKey_map_translationEntry]
    simp only [Option.getD_some, hk, Option.map_some]
    simp only [translationEntry]
    cases getKey file k <;> rfl
  · rw [reconcileLocale_added]
    have hfun : addedEntry (isDefaultLocale dl locale) ((some file).getD [])
        = fun (e : String × String) =>
            if hasKey file e.1 then none
            else some (e.1, if isDefaultLocale dl locale then e.2 else "") := by
      funext e
      cases hf : getKey file e.1 with
      | some v => simp [addedEntry, hasKey, hf]
      | none => simp [addedEntry, hasKey, hf]
    rw [hfun]

/-- Witness for C2 at a concrete template, prior file, and key. -/
theorem c2_witness :
    getKey [("a", "A")] "a" = some "A"
    ∧ ((getKey (reconcileLocale [("a", "A")] none "en" (some [])).translation "a"
         = some (match getKey ([] : Obj) "a" with
                 | some v => v
                 | none => if isDefaultLocale none "en" then "A" else ""))
       ∧ (reconcileLocale [("a", "A")] none "en" (some [])).added
           = ([("a", "A")] : Obj).filterMap (fun e =>
               if hasKey ([] : Obj) e.1 then none
               else some (e.1, if isDefaultLocale none "en" then e.2 else ""))) :=
  ⟨by decide, c2_translation_and_added [("a", "A")] none "en" [] "a" "A" (by decide)⟩

/-- C3: `removed` consists exactly of the prior-file entries whose key
is not in the template, paired with their prior values, and none of
those keys occurs in the emitted translation. -/
theorem c3_removed (t : Obj) (dl : Option String) (locale : String) (file : Obj) :
    (reconcileLocale t dl locale (some file)).removed
      = file.filter (fun e => !(hasKey t e.1))
    ∧ ((reconcileLocale t dl locale (some file)).removed).all
        (fun e => !(hasKey (reconcileLocale t dl locale (some file)).translation e.1)) = true := by
  have h1 := reconcileLocale_removed t dl locale (some file)
  simp only [Option.getD_some] at h1
  refine ⟨h1, ?_⟩
  rw [List.all_eq_true]
  intro e he
  rw [h1] at he
  have hmem := List.mem_filter.mp he
  rw [hasKey_translation]
  exact hmem.2

/-- C4: whatever the prior file's contents — including an absent file —
the emitted translation carries exactly the template's keys, in
template order. -/
theorem c4_key_closure (t : Obj) (dl : Option String) (locale : String)
    (file? : Option Obj) :
    ((reconcileLocale t dl locale file?).translation).map Prod.fst = t.map Prod.fst := by
  rw [reconcileLocale_translation, List.map_map]
  have hcomp : (Prod.fst ∘ translationEntry (isDefaultLocale dl locale) (file?.getD []))
      = (Prod.fst : String × String → String) :=
    funext fun e => translationEntry_fst _ _ e
  rw [hcomp]

/-- C5: `untranslated` consists exactly of the template keys that exist
in the prior file with a value string-identical to the template's
default text, and it is always empty for the default locale. -/
theorem c5_untranslated (t : Obj) (dl : Option String) (locale : String)
    (file? : Option Obj) :
    (reconcileLocale t dl locale file?).untranslated
      = (if isDefaultLocale dl locale then []
         else t.filterMap (fun e =>
                match getKey (file?.getD []) e.1 with
                | some v => if v == e.2 then some (e.1, v) else none
                | none => none)) := by
  rw [reconcileLocale_untranslated]
  cases hb : isDefaultLocale dl locale with
  | true =>
    simp only [if_true]
    rw [List.filterMap_eq_nil_iff]
    intro e _
    simp only [untranslatedEntry]
    cases getKey (file?.getD []) e.1 <;> simp
  | false =>
    simp only [Bool.false_eq_true, if_false]
    have hfun : untranslatedEntry false (file?.getD [])
        = fun (e : String × String) =>
            match getKey (file?.getD []) e.1 with
            | some v => if v == e.2 then some (e.1, v) else none
            | none => none := by
      funext e
      simp only [untranslatedEntry, Bool.not_false, Bool.true_and]
    rw [hfun]

/-- C6: reconciling a second time, with the first run's emitted
translation as the prior file and everything else unchanged, adds and
removes nothing. -/
theorem c6_idempotent (t : Obj) (dl : Option String) (locale : String)
    (file? : Option Obj) :
    (reconcileLocale t dl locale
        (some ((reconcileLocale t dl locale file?).translation))).added = []
    ∧ (reconcileLocale t dl locale
        (some ((reconcileLocale t dl locale file?).translation))).removed = [] := by
  constructor
  · rw [reconcileLocale_added, List.filterMap_eq_nil_iff]
    intro e he
    simp only [addedEntry, Option.getD_some]
    have h1 : hasKey (reconcileLocale t dl locale file?).translation e.1 = true := by
      rw [hasKey_translation]
      exact hasKey_of_mem t e he
    simp only [hasKey] at h1
    cases hg : getKey ((reconcileLocale t dl locale file?).translation) e.1 with
    | none => rw [hg] at h1; cases h1
    | some v => simp [hg]
  · rw [reconcileLocale_removed, List.filter_eq_nil_iff]
    intro e he
    have h1 : hasKey (reconcileLocale t dl locale file?).translation e.1 = true :=
      hasKey_of_mem _ e (by simpa using he)
    have h2 : hasKey t e.1 = true := by
      rw [← hasKey_translation t dl locale file?]
      exact h1
    simp [h2]

/-- C7: no key occurs in both `added` and `removed` of the same locale
result. -/
theorem c7_disjoint (t : Obj) (dl : Option String) (locale : String)
    (file? : Option Obj) (k : String) :
    (hasKey (reconcileLocale t dl locale file?).added k
      && hasKey (reconcileLocale t dl locale file?).removed k) = false := by
  cases hA : hasKey (reconcileLocale t dl locale file?).added k with
  | false => simp
  | true =>
    rw [Bool.true_and]
    have hKt : hasKey t k = true := by
      rw [reconcileLocale_added] at hA
      obtain ⟨v, hv⟩ := mem_of_hasKey _ k hA
      obtain ⟨e, he, hadd⟩ := List.mem_filterMap.mp hv
      have hk1 : k = e.1 := addedEntry_fst _ _ e (k, v) hadd
      rw [hk1]
      exact hasKey_of_mem t e he
    cases hR : hasKey (reconcileLocale t dl locale file?).removed k with
    | false => rfl
    | true =>
      exfalso
      rw [reconcileLocale_removed] at hR
      obtain ⟨v, hv⟩ := mem_of_hasKey _ k hR
      have hmem := List.mem_filter.mp hv
      have : hasKey t k = false := by
        have h2 := hmem.2
        simp only [Bool.not_eq_true'] at h2
        exact h2
      rw [hKt] at this
      cases this

/-! ## Claims about reload(), construction and validation -/

/-- Options for a manager with one message and one locale. -/
def c1opts : TMOptions :=
  { messages := some [⟨"m1", "Message 1"⟩], translationsDir := some "t",
    locales := ["en"], defaultLocale := some "en" }

/-- A file system with no translation files on disk. -/
def c1env : Env :=
  { files := fun _ => FileOutcome.absent, dirMessages := [], extractedMessages := [] }

/-- The manager the constructor produces for `c1opts` over `c1env`. -/
def c1m : Manager :=
  (reload { options := c1opts, translations := [], messages := [], template := [] } c1env).1

/-- C1 is false on the code: the constructor leaves one result for the
single configured locale, but a second successful `reload()` leaves two
results in `results()` — the batch from the earlier run is not
replaced. -/
theorem c1_counterexample :
    construct c1opts c1env = Except.ok c1m
    ∧ c1opts.locales = ["en"]
    ∧ c1m.translations.length = 1
    ∧ (reload c1m c1env).2 = none
    ∧ ((reload c1m c1env).1).translations.length = 2 := by
  exact ⟨rfl, rfl, rfl, rfl, rfl⟩

/-- C1 (amended): `reload()` appends instead of replacing: after a
reload in which message resolution and every locale's file read
succeed, `results()` equals the prior result list followed by exactly
one new result per configured locale, recomputed from the current
options, template and on-disk files; results from earlier runs
remain. -/
theorem c1_reload_appends (m : Manager) (env : Env) (msgs : List Message)
    (hres : resolveMessages m.options env = Except.ok msgs)
    (hok : ∀ l ∈ m.options.locales, ∀ e, env.files l ≠ FileOutcome.readError e) :
    results (reload m env).1
      = results m
        ++ m.options.locales.map (fun l =>
             reconcileLocale (buildTemplate msgs) m.options.defaultLocale l (fileOf env l))
    ∧ (reload m env).2 = none := by
  rw [reload_ok m env msgs hres hok]
  exact ⟨rfl, rfl⟩

/-- Witness for the amended C1 at the concrete manager `c1m`. -/
theorem c1_reload_appends_witness :
    results (reload c1m c1env).1
      = results c1m
        ++ c1m.options.locales.map (fun l =>
             reconcileLocale (buildTemplate [⟨"m1", "Message 1"⟩])
               c1m.options.defaultLocale l (fileOf c1env l))
    ∧ (reload c1m c1env).2 = none :=
  c1_reload_appends c1m c1env [⟨"m1", "Message 1"⟩] rfl
    (fun _ _ _ h => FileOutcome.noConfusion h)

/-- Options supplying all three message sources at once, plus
`translationsDir`. -/
def c8opts : TMOptions :=
  { source := some "app/src", messages := some [⟨"m1", "Message 1"⟩],
    messagesDir := some "app/messages", translationsDir := some "t",
    locales := [], defaultLocale := none }

/-- A file system with no translation files on disk. -/
def c8env : Env :=
  { files := fun _ => FileOutcome.absent, dirMessages := [], extractedMessages := [] }

/-- The manager construction yields for `c8opts` over `c8env`. -/
def c8m : Manager :=
  { options := c8opts, translations := [], messages := [⟨"m1", "Message 1"⟩],
    template := [("m1", "Message 1")] }

/-- C8 is partly false on the code: supplying all three of `source`,
`messages` and `messagesDir` at once passes validation and construction
succeeds, so "exactly one must be supplied" does not hold — only
"at least one" is checked. -/
theorem c8_counterexample :
    messagesTruthy c8opts.messages = true
    ∧ strTruthy c8opts.messagesDir = true
    ∧ strTruthy c8opts.source = true
    ∧ validateOptions c8opts = Except.ok ()
    ∧ construct c8opts c8env = Except.ok c8m :=
  ⟨rfl, rfl, rfl, rfl, rfl⟩

/-- C8 (amended): construction fails with a validation error exactly
when all three of `source`, `messages` and `messagesDir` are absent
(falsy) or `translationsDir` is absent (falsy) — at least one message
source must be supplied, not exactly one — and a validation failure is
raised for every environment alike, before any file access. -/
theorem c8_validation (o : TMOptions) :
    (validateOptions o = Except.ok ()
      ↔ ((messagesTruthy o.messages || strTruthy o.messagesDir || strTruthy o.source)
          && strTruthy o.translationsDir) = true)
    ∧ (∀ e, validateOptions o = Except.error e → ∀ env, construct o env = Except.error e) := by
  constructor
  · rw [validateOptions]
    cases hm : messagesTruthy o.messages <;>
      cases hd : strTruthy o.messagesDir <;>
        cases hs : strTruthy o.source <;>
          cases ht : strTruthy o.translationsDir <;>
            simp [hm, hd, hs, ht]
  · intro e he env
    rw [construct, he]

/-- Witness for the amended C8: the empty options fail validation and
construction fails identically, without consulting the environment. -/
theorem c8_validation_witness :
    construct { } c8env
      = Except.error "Please provide one of messages, messagesDir, or source options" :=
  (c8_validation { }).2 "Please provide one of messages, messagesDir, or source options"
    rfl c8env

/-- Options with one message and the locales `en` and `de`. -/
def c9opts : TMOptions :=
  { messages := some [⟨"m1", "Message 1"⟩], translationsDir := some "t",
    locales := ["en", "de"], defaultLocale := some "en" }

/-- A file system with no translation files on disk. -/
def c9envOk : Env :=
  { files := fun _ => FileOutcome.absent, dirMessages := [], extractedMessages := [] }

/-- The same file system after `de.json` became unreadable. -/
def c9envBad : Env :=
  { files := fun l => if l == "de" then FileOutcome.readError "EACCES" else FileOutcome.absent,
    dirMessages := [], extractedMessages := [] }

/-- The manager constructed for `c9opts` while both reads succeeded. -/
def c9m : Manager :=
  (reload { options := c9opts, translations := [], messages := [], template := [] } c9envOk).1

/-- C9's tail is false on the code: when reading `de.json` fails with a
non-ENOENT error, `reload()` does propagate the fatal error, but the run
has already appended the result for the earlier locale `en`, so results
ARE produced for that run (the list grows from 2 to 3 entries). -/
theorem c9_counterexample :
    construct c9opts c9envOk = Except.ok c9m
    ∧ c9m.translations.length = 2
    ∧ (reload c9m c9envBad).2 = some "EACCES"
    ∧ ((reload c9m c9envBad).1).translations.length = 3 :=
  ⟨rfl, rfl, rfl, rfl⟩

/-- C9 (amended): an absent translation file is not an error — the
locale reconciles against an empty prior mapping — while any other read
failure propagates as a fatal error that stops the run at the failing
locale: the results of the locales before it have already been
appended, and no result is produced for the failing locale or the
locales after it. -/
theorem c9_read_failure (dl : Option String) (t : Obj) (env : Env)
    (pre rest : List String) (badLocale l0 : String) (acc : List TMResult) (e : String)
    (hok : ∀ l ∈ pre, ∀ msg, env.files l ≠ FileOutcome.readError msg)
    (hbad : env.files badLocale = FileOutcome.readError e)
    (habs : env.files l0 = FileOutcome.absent) :
    readTranslationFile env l0 = Except.ok none
    ∧ performLoop dl t env [l0] [] = ([reconcileLocale t dl l0 (some [])], none)
    ∧ readTranslationFile env badLocale = Except.error e
    ∧ performLoop dl t env (pre ++ badLocale :: rest) acc
        = (acc ++ pre.map (fun l => reconcileLocale t dl l (fileOf env l)), some e) := by
  have h0 : readTranslationFile env l0 = Except.ok none := by
    rw [readTranslationFile, habs]
  have hb : readTranslationFile env badLocale = Except.error e := by
    rw [readTranslationFile, hbad]
  refine ⟨h0, ?_, hb, ?_⟩
  · show performLoop dl t env (l0 :: []) [] = _
    rw [performLoop, h0]
    show ([reconcileLocale t dl l0 none], none) = _
    have : reconcileLocale t dl l0 none = reconcileLocale t dl l0 (some []) := rfl
    rw [this]
  · rw [performLoop_ok_front dl t env pre (badLocale :: rest) acc hok]
    rw [performLoop, hb]

/-- Witness for the amended C9 on the concrete broken file system. -/
theorem c9_read_failure_witness :
    readTranslationFile c9envBad "en" = Except.ok none
    ∧ performLoop (some "en") [("m1", "Message 1")] c9envBad ["en"] []
        = ([reconcileLocale [("m1", "Message 1")] (some "en") "en" (some [])], none)
    ∧ readTranslationFile c9envBad "de" = Except.error "EACCES"
    ∧ performLoop (some "en") [("m1", "Message 1")] c9envBad ([] ++ "de" :: []) []
        = ([] ++ ([] : List String).map (fun l =>
              reconcileLocale [("m1", "Message 1")] (some "en") l (fileOf c9envBad l)),
           some "EACCES") :=
  c9_read_failure (some "en") [("m1", "Message 1")] c9envBad [] [] "de" "en" [] "EACCES"
    (fun _ h => absurd h (List.not_mem_nil _)) rfl rfl

/-- C10: an empty `messages` array counts as a supplied message source,
so validation passes; it yields the empty template, and every locale
then reconciles to an empty translation with empty `added` and
`untranslated`, while `removed` is the entire prior locale file. -/
theorem c10_empty_messages (td : String) (locales : List String) (dl : Option String)
    (env : Env) (locale : String) (file : Obj)
    (htd : (td == "") = false) :
    validateOptions { messages := some [], translationsDir := some td,
                      locales := locales, defaultLocale := dl } = Except.ok ()
    ∧ resolveMessages { messages := some [], translationsDir := some td,
                        locales := locales, defaultLocale := dl } env = Except.ok []
    ∧ buildTemplate [] = []
    ∧ reconcileLocale [] dl locale (some file)
        = { locale := locale, translation := [], added := [],
            removed := file, untranslated := [] } := by
  refine ⟨?_, rfl, rfl, ?_⟩
  · rw [validateOptions]
    simp [messagesTruthy, strTruthy, htd]
  · rw [reconcileLocale]
    simp [hasKey, getKey, List.filter_true]

/-- Witness for C10 at a concrete directory, locale and prior file. -/
theorem c10_empty_messages_witness :
    validateOptions { messages := some [], translationsDir := some "t",
                      locales := ["en"], defaultLocale := none } = Except.ok ()
    ∧ resolveMessages { messages := some [], translationsDir := some "t",
                        locales := ["en"], defaultLocale := none } c9envOk = Except.ok []
    ∧ buildTemplate [] = []
    ∧ reconcileLocale [] none "en" (some [("x", "y")])
        = { locale := "en", translation := [], added := [],
            removed := [("x", "y")], untranslated := [] } :=
  c10_empty_messages "t" ["en"] none c9envOk "en" [("x", "y")] rfl
